import Mathlib

/-!
Verification of the `ctts`/`utts` TTS client library.

Shallow embedding of the pure logic of:
  * `ctts/utils.py` — `convert_to_enum`, `run_task`, `batch_agenerate`;
  * `ctts/cartesia.py` — request construction of `generate`/`agenerate`
    and `_wrap_pcm_f32_to_wav`;
  * `utts/client.py` — `UTTSClient.__init__`.

Timing (`time.time()`) is modelled by letting each capability report the
wall-clock duration it consumed; completion order of concurrently awaited
tasks is modelled by an explicit order parameter (a permutation of the
submission indices); invocation of a capability is made observable by an
explicit invocation log returned next to the results.
-/

/-- A single-quote character, used in error-message construction. -/
def squote : String := (Char.ofNat 39).toString

/-- A Python `Enum` class: its `__name__` and the canonical string values
of its members (`[str(v.value) for v in enum_class]`, in declaration order). -/
structure EnumClass where
  name : String
  values : List String

/-- A loosely-typed argument as accepted by `convert_to_enum`: either an
enumerant object (tagged with the name of its enum class and carrying its
canonical string value), or a raw string. -/
inductive Value where
  | enum (cls : String) (v : String) : Value
  | str (s : String) : Value
deriving DecidableEq

/-- The canonical string value of an argument (for a `str`-Enum member this
coincides with its string form, which is how Python value-lookup sees it). -/
def Value.valueStr : Value → String
  | .enum _ v => v
  | .str s => s

/-- `isinstance(value, enum_class)`: the argument is an enumerant object of
exactly the target class. -/
def isinstanceOf (value : Value) (enum_class : EnumClass) : Bool :=
  match value with
  | .enum cls _ => cls = enum_class.name
  | .str _ => false

/-- Python `", ".join(strings)`. -/
def str_join (sep : String) : List String → String
  | [] => ""
  | [v] => v
  | v :: rest => v ++ sep ++ str_join sep (v :: rest).tail

/-- `ctts.utils.convert_to_enum`: return `value` unchanged if it is already a
member of `enum_class`; otherwise resolve it by canonical value, and on
failure raise a `ValueError` listing every legal value. -/
def convert_to_enum (enum_class : EnumClass) (value : Value) : Except String Value :=
  if isinstanceOf value enum_class then
    Except.ok value
  else if value.valueStr ∈ enum_class.values then
    Except.ok (Value.enum enum_class.name value.valueStr)
  else
    Except.error
      ("Invalid value: " ++ squote ++ value.valueStr ++ squote ++ " for " ++ enum_class.name ++
        ". Valid options are: " ++ str_join ", " enum_class.values)

/-- Every member of a joined list is an infix of the join. -/
theorem mem_isInfix_str_join (l : List String) (v : String) (hv : v ∈ l) :
    v.data <:+: (str_join ", " l).data := by
  induction l with
  | nil => cases hv
  | cons a rest ih =>
    rcases List.mem_cons.mp hv with h | h
    · subst h
      cases rest with
      | nil => exact List.infix_rfl
      | cons b r =>
        refine ⟨[], (", " ++ str_join ", " (b :: r)).data, ?_⟩
        simp [str_join, String.data_append]
    · cases rest with
      | nil => cases h
      | cons b r =>
        have hinf := ih h
        refine hinf.trans ⟨(a ++ ", ").data, [], ?_⟩
        simp [str_join, String.data_append]

/-- An infix of `t` is an infix of `s ++ t`. -/
theorem isInfix_append_left_of_isInfix {α : Type} {x t : List α} (s : List α)
    (h : x <:+: t) : x <:+: s ++ t := by
  rcases h with ⟨u, w, huw⟩
  exact ⟨s ++ u, w, by rw [← huw]; simp⟩

/-- C4: for every target enum set and every member of it, `convert_to_enum`
returns the identical enumerant whether the argument is the enumerant itself
or its canonical string value; in particular a member of the target set is
returned unchanged. -/
theorem convert_to_enum_idempotent (E : EnumClass) (v : String) (hv : v ∈ E.values) :
    convert_to_enum E (Value.enum E.name v) = Except.ok (Value.enum E.name v) ∧
    convert_to_enum E (Value.str v) = Except.ok (Value.enum E.name v) := by
  constructor
  · simp [convert_to_enum, isinstanceOf]
  · simp [convert_to_enum, isinstanceOf, Value.valueStr, hv]

/-- Witness for C4 on a concrete enum class and member. -/
theorem convert_to_enum_idempotent_witness :
    "sonic-2" ∈ (EnumClass.mk "Model" ["sonic-2", "sonic"]).values ∧
    convert_to_enum (EnumClass.mk "Model" ["sonic-2", "sonic"])
        (Value.enum "Model" "sonic-2") = Except.ok (Value.enum "Model" "sonic-2") ∧
    convert_to_enum (EnumClass.mk "Model" ["sonic-2", "sonic"])
        (Value.str "sonic-2") = Except.ok (Value.enum "Model" "sonic-2") := by
  refine ⟨by decide, ?_⟩
  have h := convert_to_enum_idempotent (EnumClass.mk "Model" ["sonic-2", "sonic"])
    "sonic-2" (by decide)
  exact h

/-- C5: for every target enum set and every string that is not the canonical
value of any member (a raw string is never a member itself), `convert_to_enum`
fails with an error whose message contains every legal canonical value. -/
theorem convert_to_enum_invalid_lists_all_values (E : EnumClass) (s : String)
    (hs : s ∉ E.values) :
    ∃ msg, convert_to_enum E (Value.str s) = Except.error msg ∧
      ∀ v ∈ E.values, v.data <:+: msg.data := by
  refine ⟨"Invalid value: " ++ squote ++ s ++ squote ++ " for " ++ E.name ++
      ". Valid options are: " ++ str_join ", " E.values,
    by simp [convert_to_enum, isinstanceOf, Value.valueStr, hs], ?_⟩
  intro v hv
  have hj := mem_isInfix_str_join E.values v hv
  calc v.data
      <:+: (str_join ", " E.values).data := hj
    _ <:+: ("Invalid value: " ++ squote ++ s ++ squote ++ " for " ++ E.name ++
        ". Valid options are: " ++ str_join ", " E.values).data := by
        rw [String.data_append]
        exact isInfix_append_left_of_isInfix _ List.infix_rfl

/-- Witness for C5 on a concrete enum class and invalid string. -/
theorem convert_to_enum_invalid_witness :
    "blue" ∉ (EnumClass.mk "Color" ["red", "green"]).values ∧
    ∃ msg, convert_to_enum (EnumClass.mk "Color" ["red", "green"])
        (Value.str "blue") = Except.error msg ∧
      ∀ v ∈ (EnumClass.mk "Color" ["red", "green"]).values, v.data <:+: msg.data := by
  refine ⟨by decide, ?_⟩
  exact convert_to_enum_invalid_lists_all_values
    (EnumClass.mk "Color" ["red", "green"]) "blue" (by decide)

/-- A parameter mapping (Python keyword dict) passed to a capability. -/
abbrev Params := List (String × String)

/-- An audio payload (bytes). -/
abbrev Payload := List Nat

/-- A generation capability (`func` in `run_task`): from the input text and
the parameter mapping it either returns a payload or raises an error (given
by its string form `str(e)`), and consumes some wall-clock time, reported as
the second component. -/
abbrev Capability := String → Params → Except String Payload × Nat

/-- The uniform result record built by `run_task`: the Python dict with keys
`index`, `func`, `text`, `params`, `result`/`error`, `elapsed`, `success`. -/
structure TaskResult where
  index : Nat
  func : Capability
  text : String
  params : Params
  result : Option Payload
  error : Option String
  elapsed : Nat
  success : Bool

/-- `ctts.utils.run_task`: run the capability; on normal completion record
the payload with `success=True`, on any raised error record `str(e)` with
`success=False`; `elapsed` is the wall-clock time consumed up to completion
or up to the failure point. -/
def run_task (func : Capability) (text : String) (params : Params) (index : Nat) :
    TaskResult :=
  match func text params with
  | (Except.ok r, elapsed) => ⟨index, func, text, params, some r, none, elapsed, true⟩
  | (Except.error e, elapsed) => ⟨index, func, text, params, none, some e, elapsed, false⟩

/-- A task entry submitted to `batch_agenerate`: a Python tuple of length 2
`(func, text)`, of length 3 `(func, text, params)`, or of any other arity. -/
inductive TaskEntry where
  | pair (func : Capability) (text : String)
  | triple (func : Capability) (text : String) (params : Params)
  | wrongArity (n : Nat) (h2 : n ≠ 2) (h3 : n ≠ 3)

/-- `len(task_tuple)`. -/
def TaskEntry.arity : TaskEntry → Nat
  | .pair .. => 2
  | .triple .. => 3
  | .wrongArity n _ _ => n

/-- An entry is well-formed when its arity is 2 or 3. -/
def TaskEntry.wellFormed : TaskEntry → Bool
  | .pair .. => true
  | .triple .. => true
  | .wrongArity .. => false

/-- The capability of a well-formed entry. -/
def TaskEntry.capability : TaskEntry → Option Capability
  | .pair f _ => some f
  | .triple f _ _ => some f
  | .wrongArity .. => none

/-- A task as prepared by the submission loop of `batch_agenerate`:
`run_task(func, text, params, i)` with the 0-based submission index `i`
(a created, not yet awaited, coroutine). -/
structure LaunchedTask where
  func : Capability
  text : String
  params : Params
  index : Nat

/-- The `ValueError` message raised for a bad arity. -/
def invalidTaskMsg (n : Nat) : String :=
  "Invalid task tuple length: " ++ toString n ++ ". Expected 2 or 3 elements."

/-- Unpacking a single entry at submission index `i`: a 2-tuple gets the
empty parameter dict, a 3-tuple its own; any other arity is malformed. -/
def entryLaunch : TaskEntry → Nat → Option LaunchedTask
  | .pair f t, i => some ⟨f, t, [], i⟩
  | .triple f t p, i => some ⟨f, t, p, i⟩
  | .wrongArity .., _ => none

/-- The submission loop of `batch_agenerate` (lines 121-131): walk the
entries in order with a running index, unpacking each; the first malformed
entry raises `ValueError` and no coroutine is ever awaited. -/
def parseTasks : List TaskEntry → Nat → Except String (List LaunchedTask)
  | [], _ => Except.ok []
  | .pair f t :: rest, i =>
      (parseTasks rest (i + 1)).map (fun l => ⟨f, t, [], i⟩ :: l)
  | .triple f t p :: rest, i =>
      (parseTasks rest (i + 1)).map (fun l => ⟨f, t, p, i⟩ :: l)
  | .wrongArity n _ _ :: _, _ => Except.error (invalidTaskMsg n)

/-- Awaiting one prepared task. -/
def runLaunched (lt : LaunchedTask) : TaskResult :=
  run_task lt.func lt.text lt.params lt.index

/-- `ctts.utils.batch_agenerate`: unpack all entries (failing fast on a
malformed one), then await the prepared tasks as they complete —
`completionOrder` lists submission indices in completion order, a
permutation of `0..N-1` — appending each result to the output. The second
component is the invocation log: the submission indices whose capability
was actually invoked, in invocation order (empty when unpacking failed,
since no coroutine is awaited then). -/
def batch_agenerate (tasks : List TaskEntry) (completionOrder : List Nat) :
    Except String (List TaskResult) × List Nat :=
  match parseTasks tasks 0 with
  | Except.error msg => (Except.error msg, [])
  | Except.ok launched =>
      let results := completionOrder.filterMap (fun j => (launched[j]?).map runLaunched)
      (Except.ok results, results.map TaskResult.index)

/-- `run_task` always stamps the submitted index into the result. -/
theorem run_task_index (func : Capability) (text : String) (params : Params)
    (index : Nat) : (run_task func text params index).index = index := by
  unfold run_task
  rcases func text params with ⟨r | e, n⟩ <;> rfl

/-- C2: `run_task` never propagates a capability error to its caller: on any
error it returns a record with `success=false`, the error's string form and
the elapsed time up to the failure point; on normal completion it returns a
record with `success=true` and the capability's payload. -/
theorem run_task_captures_errors (func : Capability) (text : String)
    (params : Params) (index : Nat) :
    (∀ e n, func text params = (Except.error e, n) →
      run_task func text params index =
        ⟨index, func, text, params, none, some e, n, false⟩) ∧
    (∀ r n, func text params = (Except.ok r, n) →
      run_task func text params index =
        ⟨index, func, text, params, some r, none, n, true⟩) := by
  constructor
  · intro e n h
    simp [run_task, h]
  · intro r n h
    simp [run_task, h]

/-- A capability that always raises an error with string form `"boom"`. -/
def cap_fail : Capability := fun _ _ => (Except.error "boom", 3)

/-- A capability that always succeeds with a two-byte payload. -/
def cap_ok : Capability := fun _ _ => (Except.ok [1, 2], 5)

/-- Witness for C2 on a failing and on a succeeding capability. -/
theorem run_task_captures_errors_witness :
    run_task cap_fail "hello" [] 0 =
      ⟨0, cap_fail, "hello", [], none, some "boom", 3, false⟩ ∧
    run_task cap_ok "hello" [] 1 =
      ⟨1, cap_ok, "hello", [], some [1, 2], none, 5, true⟩ :=
  ⟨(run_task_captures_errors cap_fail "hello" [] 0).1 "boom" 3 rfl,
   (run_task_captures_errors cap_ok "hello" [] 1).2 [1, 2] 5 rfl⟩

/-- The prepared tasks of a fully well-formed submission list, with running
indices starting at `i`. -/
def launchList : List TaskEntry → Nat → List LaunchedTask
  | [], _ => []
  | e :: rest, i => (entryLaunch e i).toList ++ launchList rest (i + 1)

/-- Unpacking stamps the submission index and the entry's capability. -/
theorem entryLaunch_index (e : TaskEntry) (i : Nat) (lt : LaunchedTask)
    (h : entryLaunch e i = some lt) :
    lt.index = i ∧ e.capability = some lt.func := by
  cases e with
  | pair f t =>
    injection h with h
    subst h
    exact ⟨rfl, rfl⟩
  | triple f t p =>
    injection h with h
    subst h
    exact ⟨rfl, rfl⟩
  | wrongArity n h2 h3 => cases h

/-- On an all-well-formed list the submission loop succeeds and prepares
exactly the launch list. -/
theorem parseTasks_eq_of_wf :
    ∀ (tasks : List TaskEntry) (i : Nat), tasks.all TaskEntry.wellFormed = true →
    parseTasks tasks i = Except.ok (launchList tasks i) := by
  intro tasks
  induction tasks with
  | nil => intro i _; rfl
  | cons e rest ih =>
    intro i hwf
    rw [List.all_cons, Bool.and_eq_true] at hwf
    obtain ⟨he, hrest⟩ := hwf
    cases e with
    | pair f t => simp [parseTasks, launchList, entryLaunch, Except.map, ih (i + 1) hrest]
    | triple f t p => simp [parseTasks, launchList, entryLaunch, Except.map, ih (i + 1) hrest]
    | wrongArity n h2 h3 => simp [TaskEntry.wellFormed] at he

/-- On a list with a malformed entry the submission loop raises the
arity `ValueError` of the first such entry. -/
theorem parseTasks_error_of_malformed :
    ∀ (tasks : List TaskEntry) (i : Nat), tasks.all TaskEntry.wellFormed = false →
    ∃ n, n ≠ 2 ∧ n ≠ 3 ∧ parseTasks tasks i = Except.error (invalidTaskMsg n) := by
  intro tasks
  induction tasks with
  | nil => intro i h; simp at h
  | cons e rest ih =>
    intro i hbad
    cases e with
    | pair f t =>
      rw [List.all_cons, show (TaskEntry.pair f t).wellFormed = true from rfl,
        Bool.true_and] at hbad
      obtain ⟨n, h2, h3, hp⟩ := ih (i + 1) hbad
      exact ⟨n, h2, h3, by simp [parseTasks, Except.map, hp]⟩
    | triple f t p =>
      rw [List.all_cons, show (TaskEntry.triple f t p).wellFormed = true from rfl,
        Bool.true_and] at hbad
      obtain ⟨n, h2, h3, hp⟩ := ih (i + 1) hbad
      exact ⟨n, h2, h3, by simp [parseTasks, Except.map, hp]⟩
    | wrongArity n h2 h3 => exact ⟨n, h2, h3, rfl⟩

/-- Element access into the launch list of a well-formed submission list. -/
theorem launchList_getElem? :
    ∀ (tasks : List TaskEntry) (i k : Nat), tasks.all TaskEntry.wellFormed = true →
    (launchList tasks i)[k]? = (tasks[k]?).bind (fun e => entryLaunch e (i + k)) := by
  intro tasks
  induction tasks with
  | nil => intro i k _; simp [launchList]
  | cons e rest ih =>
    intro i k hwf
    rw [List.all_cons, Bool.and_eq_true] at hwf
    obtain ⟨he, hrest⟩ := hwf
    cases e with
    | pair f t =>
      cases k with
      | zero => simp [launchList, entryLaunch]
      | succ k =>
        have harith : i + 1 + k = i + (k + 1) := by omega
        simp [launchList, entryLaunch, ih (i + 1) k hrest, harith]
    | triple f t p =>
      cases k with
      | zero => simp [launchList, entryLaunch]
      | succ k =>
        have harith : i + 1 + k = i + (k + 1) := by omega
        simp [launchList, entryLaunch, ih (i + 1) k hrest, harith]
    | wrongArity n h2 h3 => simp [TaskEntry.wellFormed] at he

/-- The launch list of a well-formed submission list has one prepared task
per entry. -/
theorem launchList_length :
    ∀ (tasks : List TaskEntry) (i : Nat), tasks.all TaskEntry.wellFormed = true →
    (launchList tasks i).length = tasks.length := by
  intro tasks
  induction tasks with
  | nil => intro i _; rfl
  | cons e rest ih =>
    intro i hwf
    rw [List.all_cons, Bool.and_eq_true] at hwf
    obtain ⟨he, hrest⟩ := hwf
    cases e with
    | pair f t => simp [launchList, entryLaunch, ih (i + 1) hrest]
    | triple f t p => simp [launchList, entryLaunch, ih (i + 1) hrest]
    | wrongArity n h2 h3 => simp [TaskEntry.wellFormed] at he

/-- Awaiting the prepared tasks in any completion order that stays within
bounds reproduces exactly that order in the `index` fields. -/
theorem results_map_index (l : List LaunchedTask)
    (hidx : ∀ (j : Nat) (lt : LaunchedTask), l[j]? = some lt → lt.index = j) :
    ∀ order : List Nat, (∀ j ∈ order, j < l.length) →
    ((order.filterMap (fun j => (l[j]?).map runLaunched)).map TaskResult.index) = order := by
  intro order
  induction order with
  | nil => intro _; rfl
  | cons j rest ih =>
    intro hb
    have hj : j < l.length := hb j (List.mem_cons_self j rest)
    obtain ⟨lt, hlt⟩ : ∃ lt, l[j]? = some lt :=
      ⟨l.get ⟨j, hj⟩, List.getElem?_eq_getElem hj⟩
    have hrest := ih (fun x hx => hb x (List.mem_cons_of_mem _ hx))
    simp [List.filterMap_cons, hlt, runLaunched, run_task_index,
      hidx j lt hlt, hrest]

/-- Every prepared task of a well-formed batch carries its own position as
its `index`. -/
theorem launchList_index_self (tasks : List TaskEntry)
    (hwf : tasks.all TaskEntry.wellFormed = true) :
    ∀ (j : Nat) (lt : LaunchedTask), (launchList tasks 0)[j]? = some lt → lt.index = j := by
  intro j lt h
  rw [launchList_getElem? tasks 0 j hwf] at h
  rcases Option.bind_eq_some.mp h with ⟨e, _, hel⟩
  have := (entryLaunch_index e (0 + j) lt hel).1
  omega

/-- C1: on a batch of N well-formed entries, `batch_agenerate` returns
exactly N result records whose `index` fields form a permutation of
`{0,...,N-1}` — each submitted task yields exactly one result. -/
theorem batch_agenerate_returns_all_indices (tasks : List TaskEntry) (order : List Nat)
    (hwf : tasks.all TaskEntry.wellFormed = true)
    (hperm : order.Perm (List.range tasks.length)) :
    ∃ rs log, batch_agenerate tasks order = (Except.ok rs, log) ∧
      rs.length = tasks.length ∧
      (rs.map TaskResult.index).Perm (List.range tasks.length) := by
  have hparse := parseTasks_eq_of_wf tasks 0 hwf
  have hlen := launchList_length tasks 0 hwf
  have hbound : ∀ j ∈ order, j < (launchList tasks 0).length := by
    intro j hj
    rw [hlen]
    exact List.mem_range.mp (hperm.mem_iff.mp hj)
  have hmap := results_map_index (launchList tasks 0)
    (launchList_index_self tasks hwf) order hbound
  refine ⟨order.filterMap (fun j => ((launchList tasks 0)[j]?).map runLaunched),
    (order.filterMap (fun j => ((launchList tasks 0)[j]?).map runLaunched)).map
      TaskResult.index,
    by simp [batch_agenerate, hparse], ?_, ?_⟩
  · have h1 := congrArg List.length hmap
    rw [List.length_map] at h1
    rw [h1, hperm.length_eq, List.length_range]
  · rw [hmap]
    exact hperm

/-- Witness for C1 on a concrete two-task batch completing in reverse order. -/
theorem batch_agenerate_returns_all_indices_witness :
    ([TaskEntry.pair cap_ok "a", TaskEntry.triple cap_fail "b" []].all
      TaskEntry.wellFormed = true) ∧
    ([1, 0].Perm (List.range
      [TaskEntry.pair cap_ok "a", TaskEntry.triple cap_fail "b" []].length)) ∧
    ∃ rs log,
      batch_agenerate [TaskEntry.pair cap_ok "a", TaskEntry.triple cap_fail "b" []]
        [1, 0] = (Except.ok rs, log) ∧
      rs.length = [TaskEntry.pair cap_ok "a", TaskEntry.triple cap_fail "b" []].length ∧
      (rs.map TaskResult.index).Perm (List.range
        [TaskEntry.pair cap_ok "a", TaskEntry.triple cap_fail "b" []].length) :=
  ⟨rfl, by decide,
    batch_agenerate_returns_all_indices
      [TaskEntry.pair cap_ok "a", TaskEntry.triple cap_fail "b" []] [1, 0]
      rfl (by decide)⟩

/-- C3: a batch with an entry of arity other than 2 or 3 makes
`batch_agenerate` raise the malformed-task `ValueError` before launching
anything: no result records are produced and the invocation log stays
empty (no capability is ever invoked). -/
theorem batch_agenerate_malformed_fails_fast (tasks : List TaskEntry) (order : List Nat)
    (hbad : tasks.all TaskEntry.wellFormed = false) :
    ∃ n, n ≠ 2 ∧ n ≠ 3 ∧
      batch_agenerate tasks order = (Except.error (invalidTaskMsg n), []) := by
  obtain ⟨n, h2, h3, hp⟩ := parseTasks_error_of_malformed tasks 0 hbad
  exact ⟨n, h2, h3, by simp [batch_agenerate, hp]⟩

/-- Witness for C3: a 4-tuple entry after a valid one aborts the batch. -/
theorem batch_agenerate_malformed_witness :
    ([TaskEntry.pair cap_ok "a",
      TaskEntry.wrongArity 4 (by decide) (by decide)].all TaskEntry.wellFormed = false) ∧
    ∃ n, n ≠ 2 ∧ n ≠ 3 ∧
      batch_agenerate
        [TaskEntry.pair cap_ok "a", TaskEntry.wrongArity 4 (by decide) (by decide)]
        [0, 1] = (Except.error (invalidTaskMsg n), []) :=
  ⟨rfl,
    batch_agenerate_malformed_fails_fast
      [TaskEntry.pair cap_ok "a", TaskEntry.wrongArity 4 (by decide) (by decide)]
      [0, 1] rfl⟩

/-- The capability raises on every input, with a non-empty error string. -/
def alwaysFailsNonempty (f : Capability) : Prop :=
  ∀ t p, ∃ e n, f t p = (Except.error e, n) ∧ e ≠ ""

/-- The capability succeeds on every input. -/
def alwaysSucceeds (f : Capability) : Prop :=
  ∀ t p, ∃ r n, f t p = (Except.ok r, n)

/-- C7 (amended): in a well-formed batch where the task at position `k` has a
capability that always raises (with non-empty string form) and every other
task always succeeds, the batch still yields one result per task; the
result carrying index `k` has `success=false` and a non-empty error
description, all others have `success=true`. -/
theorem batch_agenerate_isolates_failure (tasks : List TaskEntry) (order : List Nat)
    (k : Nat) (hk : k < tasks.length)
    (hwf : tasks.all TaskEntry.wellFormed = true)
    (hperm : order.Perm (List.range tasks.length))
    (hfail : ∀ e, tasks[k]? = some e → ∀ f, e.capability = some f →
      alwaysFailsNonempty f)
    (hok : ∀ j e, j ≠ k → tasks[j]? = some e → ∀ f, e.capability = some f →
      alwaysSucceeds f) :
    ∃ rs log, batch_agenerate tasks order = (Except.ok rs, log) ∧
      rs.length = tasks.length ∧
      (∃ r ∈ rs, r.index = k) ∧
      (∀ r ∈ rs, r.index = k →
        r.success = false ∧ ∃ e, r.error = some e ∧ e ≠ "") ∧
      (∀ r ∈ rs, r.index ≠ k → r.success = true) := by
  have hparse := parseTasks_eq_of_wf tasks 0 hwf
  have hlen := launchList_length tasks 0 hwf
  have hbound : ∀ j ∈ order, j < (launchList tasks 0).length := by
    intro j hj
    rw [hlen]
    exact List.mem_range.mp (hperm.mem_iff.mp hj)
  have hmap := results_map_index (launchList tasks 0)
    (launchList_index_self tasks hwf) order hbound
  have hmem : ∀ r ∈ order.filterMap
      (fun j => ((launchList tasks 0)[j]?).map runLaunched),
      ∃ j lt, (launchList tasks 0)[j]? = some lt ∧ r = runLaunched lt ∧
        lt.index = j ∧ ∃ e, tasks[j]? = some e ∧ e.capability = some lt.func := by
    intro r hr
    rcases List.mem_filterMap.mp hr with ⟨j, _, hj⟩
    rcases Option.map_eq_some.mp hj with ⟨lt, hlt, hrl⟩
    have hidx := launchList_index_self tasks hwf j lt hlt
    have hget := hlt
    rw [launchList_getElem? tasks 0 j hwf] at hget
    rcases Option.bind_eq_some.mp hget with ⟨e, hte, hel⟩
    exact ⟨j, lt, hlt, hrl.symm, hidx, e, hte, (entryLaunch_index e (0 + j) lt hel).2⟩
  refine ⟨order.filterMap (fun j => ((launchList tasks 0)[j]?).map runLaunched),
    (order.filterMap (fun j => ((launchList tasks 0)[j]?).map runLaunched)).map
      TaskResult.index,
    by simp [batch_agenerate, hparse], ?_, ?_, ?_, ?_⟩
  · have h1 := congrArg List.length hmap
    rw [List.length_map] at h1
    rw [h1, hperm.length_eq, List.length_range]
  · have hkmem : k ∈ order := hperm.mem_iff.mpr (List.mem_range.mpr hk)
    have : k ∈ (order.filterMap
        (fun j => ((launchList tasks 0)[j]?).map runLaunched)).map TaskResult.index := by
      rw [hmap]
      exact hkmem
    rcases List.mem_map.mp this with ⟨r, hr, hri⟩
    exact ⟨r, hr, hri⟩
  · intro r hr hri
    rcases hmem r hr with ⟨j, lt, _, hrl, hlj, e, hte, hcap⟩
    have hjk : j = k := by
      rw [hrl, runLaunched, run_task_index] at hri
      omega
    subst hjk
    rcases hfail e hte lt.func hcap lt.text lt.params with ⟨e', n, hfe, hne⟩
    have := (run_task_captures_errors lt.func lt.text lt.params lt.index).1 e' n hfe
    rw [hrl, runLaunched, this]
    exact ⟨rfl, e', rfl, hne⟩
  · intro r hr hri
    rcases hmem r hr with ⟨j, lt, _, hrl, hlj, e, hte, hcap⟩
    have hjk : j ≠ k := by
      rw [hrl, runLaunched, run_task_index] at hri
      omega
    rcases hok j e hjk hte lt.func hcap lt.text lt.params with ⟨r', n, hfe⟩
    have := (run_task_captures_errors lt.func lt.text lt.params lt.index).2 r' n hfe
    rw [hrl, runLaunched, this]

/-- Witness for C7 (amended) on a concrete two-task batch with one failing
capability, completing in reverse order. -/
theorem batch_agenerate_isolates_failure_witness :
    1 < [TaskEntry.pair cap_ok "a", TaskEntry.pair cap_fail "b"].length ∧
    ([TaskEntry.pair cap_ok "a", TaskEntry.pair cap_fail "b"].all
      TaskEntry.wellFormed = true) ∧
    ([1, 0].Perm (List.range
      [TaskEntry.pair cap_ok "a", TaskEntry.pair cap_fail "b"].length)) ∧
    ∃ rs log,
      batch_agenerate [TaskEntry.pair cap_ok "a", TaskEntry.pair cap_fail "b"]
        [1, 0] = (Except.ok rs, log) ∧
      rs.length = [TaskEntry.pair cap_ok "a", TaskEntry.pair cap_fail "b"].length ∧
      (∃ r ∈ rs, r.index = 1) ∧
      (∀ r ∈ rs, r.index = 1 →
        r.success = false ∧ ∃ e, r.error = some e ∧ e ≠ "") ∧
      (∀ r ∈ rs, r.index ≠ 1 → r.success = true) := by
  refine ⟨by decide, rfl, by decide, ?_⟩
  refine batch_agenerate_isolates_failure
    [TaskEntry.pair cap_ok "a", TaskEntry.pair cap_fail "b"] [1, 0] 1
    (by decide) rfl (by decide) ?_ ?_
  · intro e he f hf
    have he' : e = TaskEntry.pair cap_fail "b" := by
      injection he with he
      exact he.symm
    subst he'
    have hf' : f = cap_fail := by
      injection hf with hf
      exact hf.symm
    subst hf'
    exact fun t p => ⟨"boom", 3, rfl, by decide⟩
  · intro j e hj he f hf
    match j, he with
    | 0, he =>
      have he' : e = TaskEntry.pair cap_ok "a" := by
        injection he with he
        exact he.symm
      subst he'
      have hf' : f = cap_ok := by
        injection hf with hf
        exact hf.symm
      subst hf'
      exact fun t p => ⟨[1, 2], 5, rfl⟩
    | 1, he => exact absurd rfl hj

/-- A capability raising an error whose string form is empty, as Python
permits: `str(Exception()) == ""`. -/
def failEmptyCap : Capability := fun _ _ => (Except.error "", 0)

/-- C7 counterexample: with a capability that always raises an error whose
string form is empty, the batch result for the failing task has
`success=false` but an EMPTY error description (`error = some ""`), refuting
the claim that the error description is always non-empty. -/
theorem batch_agenerate_empty_error_cex :
    (∀ t p, failEmptyCap t p = (Except.error "", 0)) ∧
    batch_agenerate [TaskEntry.pair failEmptyCap "hi"] [0] =
      (Except.ok [⟨0, failEmptyCap, "hi", [], none, some "", 0, false⟩], [0]) :=
  ⟨fun _ _ => rfl, rfl⟩

/-- `ctts.cartesia.Model`: the available Cartesia TTS models. -/
def Model : EnumClass :=
  ⟨"Model", ["sonic-2", "sonic-turbo", "sonic", "sonic-2-2025-04-16",
    "sonic-2-2025-03-07", "sonic-turbo-2025-03-07", "sonic-2024-12-12",
    "sonic-2024-10-19"]⟩

/-- `ctts.cartesia.Language`: the available Cartesia TTS languages. -/
def CartesiaLanguage : EnumClass :=
  ⟨"Language", ["en", "fr", "de", "es", "pt", "zh", "ja", "hi", "it", "ko",
    "nl", "pl", "ru", "sv", "tr"]⟩

/-- Default voice ID from Cartesia documentation. -/
def DEFAULT_VOICE_ID : String := "694f9389-aac1-45b6-b726-9d9369183238"

/-- The `output_format` sub-dictionary of a Cartesia request. -/
structure OutputFormat where
  container : String
  sample_rate : Nat
  encoding : String
deriving DecidableEq

/-- The `voice` entry of a Cartesia request: `{"id": ...}` or `{"audio": ...}`. -/
inductive VoiceParam where
  | id (s : String)
  | audio (b : List Nat)
deriving DecidableEq

/-- The request dictionary built by `ctts.cartesia.generate`/`agenerate`. -/
structure RequestParams where
  model_id : String
  transcript : String
  language : String
  output_format : OutputFormat
  voice : VoiceParam
  duration : Option ℚ
deriving DecidableEq

/-- Python truthiness of an optional string: `None` and `""` are falsy. -/
def truthyStr : Option String → Bool
  | none => false
  | some s => s != ""

/-- Python truthiness of an optional byte string: `None` and `b""` are falsy. -/
def truthyBytes : Option (List Nat) → Bool
  | none => false
  | some b => !b.isEmpty

/-- The request construction shared by `ctts.cartesia.generate` (lines
97-123) and `agenerate` (lines 155-181): normalize `model` and `language`
through `convert_to_enum` (errors propagate to the caller), fix the output
format, pick the voice — `voice_id` first, then `voice_audio`, then the
default voice — and attach `duration` when given. -/
def generate_request (text : String) (model : Value) (language : Value)
    (voice_id : Option String) (voice_audio : Option (List Nat))
    (duration : Option ℚ) : Except String RequestParams :=
  match convert_to_enum Model model with
  | Except.error e => Except.error e
  | Except.ok model_enum =>
    match convert_to_enum CartesiaLanguage language with
    | Except.error e => Except.error e
    | Except.ok language_enum =>
      Except.ok
        { model_id := model_enum.valueStr
          transcript := text
          language := language_enum.valueStr
          output_format := ⟨"wav", 44100, "pcm_f32le"⟩
          voice :=
            if truthyStr voice_id then VoiceParam.id (voice_id.getD "")
            else if truthyBytes voice_audio then VoiceParam.audio (voice_audio.getD [])
            else VoiceParam.id DEFAULT_VOICE_ID
          duration := duration }

/-- C9: whenever the caller supplies neither a `voice_id` nor a
`voice_audio` sample, the request built by `generate`/`agenerate` carries
the documented default voice `{"id": DEFAULT_VOICE_ID}`. -/
theorem generate_request_default_voice (text : String) (model language : Value)
    (duration : Option ℚ) (p : RequestParams)
    (h : generate_request text model language none none duration = Except.ok p) :
    p.voice = VoiceParam.id DEFAULT_VOICE_ID := by
  unfold generate_request at h
  cases hm : convert_to_enum Model model with
  | error e => rw [hm] at h; cases h
  | ok model_enum =>
    cases hl : convert_to_enum CartesiaLanguage language with
    | error e => rw [hm, hl] at h; cases h
    | ok language_enum =>
      rw [hm, hl] at h
      injection h with h
      subst h
      rfl

/-- Witness for C9 on a concrete call with default model and language. -/
theorem generate_request_default_voice_witness :
    ∃ p, generate_request "hello" (Value.str "sonic-2") (Value.str "en")
        none none none = Except.ok p ∧
      p.voice = VoiceParam.id DEFAULT_VOICE_ID := by
  obtain ⟨p, hp⟩ : ∃ p, generate_request "hello" (Value.str "sonic-2")
      (Value.str "en") none none none = Except.ok p :=
    ⟨⟨"sonic-2", "hello", "en", ⟨"wav", 44100, "pcm_f32le"⟩,
      VoiceParam.id DEFAULT_VOICE_ID, none⟩, rfl⟩
  exact ⟨p, hp, generate_request_default_voice "hello" (Value.str "sonic-2")
    (Value.str "en") none p hp⟩

/-- `np.clip(x, lo, hi)` on one sample. -/
def np_clip (x lo hi : ℚ) : ℚ := min (max x lo) hi

/-- C-style float→int truncation toward zero, as `astype(np.int16)` performs
on in-range values. -/
def trunc_toward_zero (q : ℚ) : Int := if 0 ≤ q then ⌊q⌋ else -⌊-q⌋

/-- One sample of `_wrap_pcm_f32_to_wav`: scale by `32767.0`, clip to
`[-32768, 32767]`, truncate to a 16-bit signed integer. The rational model
is exact on the dyadic samples considered here, where every float32
operation involved is exact. -/
def scale_to_i16 (x : ℚ) : Int := trunc_toward_zero (np_clip (x * 32767) (-32768) 32767)

/-- The WAV container written by `wave`: channel count (`setnchannels`),
bytes per sample (`setsampwidth`), frame rate (`setframerate`), and the
decoded 16-bit samples (`writeframes`). -/
structure WavFile where
  nchannels : Nat
  sampwidth : Nat
  framerate : Nat
  frames : List Int
deriving DecidableEq

/-- `ctts.cartesia._wrap_pcm_f32_to_wav`: interpret the raw data as float32
samples, scale each to the int16 range, and write a mono 16-bit WAV at the
given sample rate (the Python default is 44100). -/
def wrap_pcm_f32_to_wav (raw_data : List ℚ) (sample_rate : Nat) : WavFile :=
  ⟨1, 2, sample_rate, raw_data.map scale_to_i16⟩

/-- Decoded samples of the WAV built from `[0.0, 0.5, -0.5, 1.0, -1.0]`. -/
theorem scale_known_samples :
    [(0 : ℚ), 1/2, -1/2, 1, -1].map scale_to_i16 =
      [0, 16383, -16383, 32767, -32767] := by
  simp only [List.map_cons, List.map_nil, List.cons.injEq, and_true]
  refine ⟨?_, ?_, ?_, ?_, ?_⟩ <;>
    norm_num [scale_to_i16, np_clip, trunc_toward_zero, min_def, max_def]

/-- C6 counterexample: on the input buffer `[0.0, 0.5, -0.5, 1.0, -1.0]` the
sample `-1.0` converts to `-32767` (since `-1.0 * 32767.0 = -32767.0` needs
no clipping and truncates to `-32767`), not to `-32768` as the claim's
expected sample list demands; the claim is internally inconsistent with the
multiply-clip-truncate rule it also states. -/
theorem wrap_pcm_last_sample_not_neg_32768 :
    (wrap_pcm_f32_to_wav [0, 1/2, -1/2, 1, -1] 44100).frames[4]? = some (-32767) ∧
    (some (-32767) : Option Int) ≠ some (-32768) := by
  constructor
  · show ([(0 : ℚ), 1/2, -1/2, 1, -1].map scale_to_i16)[4]? = some (-32767)
    rw [scale_known_samples]
    decide
  · decide

/-- C6 (amended): the WAV produced from the float32 buffer
`[0.0, 0.5, -0.5, 1.0, -1.0]` is mono, 16-bit, at the configured sample
rate, and decodes to the samples `[0, 16383, -16383, 32767, -32767]`,
each produced by the multiply-by-32767, clip, truncate rule. -/
theorem wrap_pcm_known_buffer :
    wrap_pcm_f32_to_wav [0, 1/2, -1/2, 1, -1] 44100 =
      ⟨1, 2, 44100, [0, 16383, -16383, 32767, -32767]⟩ := by
  show WavFile.mk 1 2 44100 ([(0 : ℚ), 1/2, -1/2, 1, -1].map scale_to_i16) = _
  rw [scale_known_samples]

/-- An adapter instance as constructed by a vendor client class
(`OpenAIClient(api_key=..., timeout=...)` and its siblings; the classes
live in vendor modules and are opaque to `utts/client.py`). -/
structure VendorAdapter where
  vendor : String
  api_key : Option String
  timeout : ℚ
deriving DecidableEq

/-- `utts.client.UTTSClient`: one optional adapter attribute per vendor. -/
structure UTTSClient where
  openai : Option VendorAdapter
  elevenlabs : Option VendorAdapter
  kokoro : Option VendorAdapter
  orpheus : Option VendorAdapter
  zyphra : Option VendorAdapter
  hume : Option VendorAdapter
  cartesia : Option VendorAdapter
deriving DecidableEq

/-- `utts.client.UTTSClient.__init__`: each vendor adapter is constructed
exactly when the corresponding API key argument is truthy; `kokoro` and
`orpheus` both key off `replicate_api_key` (the Python default timeout is
`DEFAULT_TIMEOUT = 10`). -/
def UTTSClient.init (openai_api_key elevenlabs_api_key replicate_api_key
    zyphra_api_key hume_api_key cartesia_api_key : Option String)
    (timeout : ℚ) : UTTSClient :=
  { openai := if truthyStr openai_api_key then
      some ⟨"OpenAIClient", openai_api_key, timeout⟩ else none
    elevenlabs := if truthyStr elevenlabs_api_key then
      some ⟨"ElevenLabsClient", elevenlabs_api_key, timeout⟩ else none
    kokoro := if truthyStr replicate_api_key then
      some ⟨"KokoroClient", replicate_api_key, timeout⟩ else none
    orpheus := if truthyStr replicate_api_key then
      some ⟨"OrpheusClient", replicate_api_key, timeout⟩ else none
    zyphra := if truthyStr zyphra_api_key then
      some ⟨"ZyphraClient", zyphra_api_key, timeout⟩ else none
    hume := if truthyStr hume_api_key then
      some ⟨"HumeProviderClient", hume_api_key, timeout⟩ else none
    cartesia := if truthyStr cartesia_api_key then
      some ⟨"CartesiaClient", cartesia_api_key, timeout⟩ else none }

/-- A key argument that is either absent (`None`) or a supplied, non-empty
API key. -/
def suppliedOrAbsent (k : Option String) : Prop := k = none ∨ ∃ s, k = some s ∧ s ≠ ""

/-- A truthy key is exactly a supplied one, for supplied-or-absent keys. -/
theorem truthyStr_iff_of_suppliedOrAbsent (k : Option String)
    (h : suppliedOrAbsent k) : truthyStr k = true ↔ k ≠ none := by
  rcases h with h | ⟨s, hs, hne⟩
  · subst h
    simp [truthyStr]
  · subst hs
    simp [truthyStr, hne]

/-- C8: constructing `UTTSClient` always succeeds (the constructor is
total), and for every combination of supplied and absent per-vendor keys,
each vendor attribute is `None` exactly when its key is absent —
`kokoro` and `orpheus` both follow `replicate_api_key`. -/
theorem UTTSClient_init_optional_vendors
    (k_openai k_eleven k_replicate k_zyphra k_hume k_cartesia : Option String)
    (t : ℚ)
    (h1 : suppliedOrAbsent k_openai) (h2 : suppliedOrAbsent k_eleven)
    (h3 : suppliedOrAbsent k_replicate) (h4 : suppliedOrAbsent k_zyphra)
    (h5 : suppliedOrAbsent k_hume) (h6 : suppliedOrAbsent k_cartesia) :
    ((UTTSClient.init k_openai k_eleven k_replicate k_zyphra k_hume k_cartesia
        t).openai.isSome = true ↔ k_openai ≠ none) ∧
    ((UTTSClient.init k_openai k_eleven k_replicate k_zyphra k_hume k_cartesia
        t).elevenlabs.isSome = true ↔ k_eleven ≠ none) ∧
    ((UTTSClient.init k_openai k_eleven k_replicate k_zyphra k_hume k_cartesia
        t).kokoro.isSome = true ↔ k_replicate ≠ none) ∧
    ((UTTSClient.init k_openai k_eleven k_replicate k_zyphra k_hume k_cartesia
        t).orpheus.isSome = true ↔ k_replicate ≠ none) ∧
    ((UTTSClient.init k_openai k_eleven k_replicate k_zyphra k_hume k_cartesia
        t).zyphra.isSome = true ↔ k_zyphra ≠ none) ∧
    ((UTTSClient.init k_openai k_eleven k_replicate k_zyphra k_hume k_cartesia
        t).hume.isSome = true ↔ k_hume ≠ none) ∧
    ((UTTSClient.init k_openai k_eleven k_replicate k_zyphra k_hume k_cartesia
        t).cartesia.isSome = true ↔ k_cartesia ≠ none) := by
  refine ⟨?_, ?_, ?_, ?_, ?_, ?_, ?_⟩ <;>
    simp only [UTTSClient.init, apply_ite Option.isSome, Option.isSome_some,
      Option.isSome_none]
  · rw [← truthyStr_iff_of_suppliedOrAbsent k_openai h1]
    cases truthyStr k_openai <;> simp
  · rw [← truthyStr_iff_of_suppliedOrAbsent k_eleven h2]
    cases truthyStr k_eleven <;> simp
  · rw [← truthyStr_iff_of_suppliedOrAbsent k_replicate h3]
    cases truthyStr k_replicate <;> simp
  · rw [← truthyStr_iff_of_suppliedOrAbsent k_replicate h3]
    cases truthyStr k_replicate <;> simp
  · rw [← truthyStr_iff_of_suppliedOrAbsent k_zyphra h4]
    cases truthyStr k_zyphra <;> simp
  · rw [← truthyStr_iff_of_suppliedOrAbsent k_hume h5]
    cases truthyStr k_hume <;> simp
  · rw [← truthyStr_iff_of_suppliedOrAbsent k_cartesia h6]
    cases truthyStr k_cartesia <;> simp

/-- Witness for C8: an OpenAI and a Replicate key supplied, all other keys
absent. -/
theorem UTTSClient_init_optional_vendors_witness :
    suppliedOrAbsent (some "sk-1") ∧ suppliedOrAbsent (none : Option String) ∧
    suppliedOrAbsent (some "r8-2") ∧
    (((UTTSClient.init (some "sk-1") none (some "r8-2") none none none
        10).openai.isSome = true ↔ (some "sk-1" : Option String) ≠ none) ∧
     ((UTTSClient.init (some "sk-1") none (some "r8-2") none none none
        10).elevenlabs.isSome = true ↔ (none : Option String) ≠ none) ∧
     ((UTTSClient.init (some "sk-1") none (some "r8-2") none none none
        10).kokoro.isSome = true ↔ (some "r8-2" : Option String) ≠ none) ∧
     ((UTTSClient.init (some "sk-1") none (some "r8-2") none none none
        10).orpheus.isSome = true ↔ (some "r8-2" : Option String) ≠ none) ∧
     ((UTTSClient.init (some "sk-1") none (some "r8-2") none none none
        10).zyphra.isSome = true ↔ (none : Option String) ≠ none) ∧
     ((UTTSClient.init (some "sk-1") none (some "r8-2") none none none
        10).hume.isSome = true ↔ (none : Option String) ≠ none) ∧
     ((UTTSClient.init (some "sk-1") none (some "r8-2") none none none
        10).cartesia.isSome = true ↔ (none : Option String) ≠ none)) :=
  ⟨Or.inr ⟨"sk-1", rfl, by decide⟩, Or.inl rfl, Or.inr ⟨"r8-2", rfl, by decide⟩,
    UTTSClient_init_optional_vendors (some "sk-1") none (some "r8-2") none none none 10
      (Or.inr ⟨"sk-1", rfl, by decide⟩) (Or.inl rfl)
      (Or.inr ⟨"r8-2", rfl, by decide⟩) (Or.inl rfl) (Or.inl rfl) (Or.inl rfl)⟩

/-- C10: a falsy key behaves like an absent one — an empty-string key for
any vendor leaves that adapter attribute `None` — and `kokoro` and
`orpheus` are both keyed by the single `replicate_api_key`: they are
constructed exactly when it is truthy. -/
theorem UTTSClient_falsy_key_and_replicate_sharing
    (k_openai k_eleven k_replicate k_zyphra k_hume k_cartesia : Option String)
    (t : ℚ) :
    (k_openai = some "" → (UTTSClient.init k_openai k_eleven k_replicate
      k_zyphra k_hume k_cartesia t).openai = none) ∧
    (k_eleven = some "" → (UTTSClient.init k_openai k_eleven k_replicate
      k_zyphra k_hume k_cartesia t).elevenlabs = none) ∧
    (k_replicate = some "" → (UTTSClient.init k_openai k_eleven k_replicate
      k_zyphra k_hume k_cartesia t).kokoro = none ∧
      (UTTSClient.init k_openai k_eleven k_replicate k_zyphra k_hume
        k_cartesia t).orpheus = none) ∧
    (k_zyphra = some "" → (UTTSClient.init k_openai k_eleven k_replicate
      k_zyphra k_hume k_cartesia t).zyphra = none) ∧
    (k_hume = some "" → (UTTSClient.init k_openai k_eleven k_replicate
      k_zyphra k_hume k_cartesia t).hume = none) ∧
    (k_cartesia = some "" → (UTTSClient.init k_openai k_eleven k_replicate
      k_zyphra k_hume k_cartesia t).cartesia = none) ∧
    ((UTTSClient.init k_openai k_eleven k_replicate k_zyphra k_hume
      k_cartesia t).kokoro.isSome = truthyStr k_replicate) ∧
    ((UTTSClient.init k_openai k_eleven k_replicate k_zyphra k_hume
      k_cartesia t).orpheus.isSome = truthyStr k_replicate) := by
  refine ⟨?_, ?_, ?_, ?_, ?_, ?_, ?_, ?_⟩
  · intro h; subst h; simp [UTTSClient.init, truthyStr]
  · intro h; subst h; simp [UTTSClient.init, truthyStr]
  · intro h; subst h; simp [UTTSClient.init, truthyStr]
  · intro h; subst h; simp [UTTSClient.init, truthyStr]
  · intro h; subst h; simp [UTTSClient.init, truthyStr]
  · intro h; subst h; simp [UTTSClient.init, truthyStr]
  · simp only [UTTSClient.init, apply_ite Option.isSome, Option.isSome_some,
      Option.isSome_none]
    cases truthyStr k_replicate <;> rfl
  · simp only [UTTSClient.init, apply_ite Option.isSome, Option.isSome_some,
      Option.isSome_none]
    cases truthyStr k_replicate <;> rfl

/-- Witness for C10: empty-string keys everywhere except a real Replicate
key, which constructs both `kokoro` and `orpheus`. -/
theorem UTTSClient_falsy_key_witness :
    ((some "" : Option String) = some "" →
      (UTTSClient.init (some "") (some "") (some "tok") (some "") (some "")
        (some "") 10).openai = none) ∧
    ((UTTSClient.init (some "") (some "") (some "tok") (some "") (some "")
      (some "") 10).kokoro.isSome = truthyStr (some "tok")) ∧
    ((UTTSClient.init (some "") (some "") (some "tok") (some "") (some "")
      (some "") 10).orpheus.isSome = truthyStr (some "tok")) := by
  have h := UTTSClient_falsy_key_and_replicate_sharing (some "") (some "")
    (some "tok") (some "") (some "") (some "") 10
  exact ⟨fun _ => h.1 rfl, h.2.2.2.2.2.2.1, h.2.2.2.2.2.2.2⟩
